import Mathlib

/-!
# Verification of the HEV-E bbox grid-snapping and order-validation layer

Shallow embedding of `gfdrr_det/serializers.py`: the grid-snapping routines
`generate_1d_grid`, `snap_value`, `enlarge_coordinate`, `snap_bbox_to_grid`
and the order-intake validation helpers `_validate_layer`, `_validate_format`,
`_parse_categories`, `_parse_event_ids`, `_parse_bbox` together with the
per-item body of `OrderSerializer.to_internal_value`.

Modelling conventions:
* Python floats are exact rationals (`ℚ`).
* Python strings are `List Char` (`String.data` of Lean string literals), so
  that all string operations are structurally recursive and computable;
  `str.lower`, `str.split(c)` and `str.partition(c)` are `pyLower`,
  `pySplit` and `pyPartition`.
* Python exceptions are the `PyError` sum type and `Except PyError` results.
* The `for i in count(start, step)` loop of `generate_1d_grid` is a
  fuel-indexed step function (`gridLoop`); exhausted fuel (`none`) models
  non-termination of the Python loop, and `generate_1d_grid` supplies fuel
  that is proven sufficient whenever the Python loop terminates.
* The Python builtins `float(str)` and `int(str)` and the Django settings
  object are external to this file's source and are passed as explicit
  parameters (`parseFloat`, `parseInt`, `HevConfig`).
-/

set_option allowUnsafeReducibility true
attribute [semireducible] Rat.sub Rat.add Rat.mul Rat.inv Rat.div

/-- Decidable equality for `Except` results, so that concrete runs of the
embedded functions can be checked by `decide`. -/
instance {e a : Type} [DecidableEq e] [DecidableEq a] : DecidableEq (Except e a) := fun x y =>
  match x, y with
  | .ok v, .ok w =>
    if h : v = w then isTrue (by rw [h]) else isFalse (by intro hh; cases hh; exact h rfl)
  | .error v, .error w =>
    if h : v = w then isTrue (by rw [h]) else isFalse (by intro hh; cases hh; exact h rfl)
  | .ok _, .error _ => isFalse (by intro hh; cases hh)
  | .error _, .ok _ => isFalse (by intro hh; cases hh)

/-- The Python exceptions raised by this layer, modelled structurally:
`zeroResolution` and `couldNotSnap` are the two `RuntimeError`s,
`maxEmpty` is the `ValueError` of `max([])`, `indexError` is an
`IndexError`, `validation f m` is `serializers.ValidationError({f: m})`
(for messages built with `str.format` we keep only the static template
text), and `nonTermination` marks a Python loop that never exits. -/
inductive PyError where
  | zeroResolution : PyError
  | nonTermination : PyError
  | couldNotSnap : ℚ → PyError
  | maxEmpty : PyError
  | indexError : PyError
  | validation : String → String → PyError
deriving DecidableEq, Repr

/-- One step of the `for i in count(start=start, step=resolution)` loop of
`generate_1d_grid`: `if i > end: break` then `grid.append(float(i))`.
The accumulator is kept reversed; `none` means the fuel ran out before the
loop exited. -/
def gridLoop (e r : ℚ) : ℕ → ℚ → List ℚ → Option (List ℚ)
  | 0, _, _ => none
  | fuel + 1, i, acc => if e < i then some acc.reverse else gridLoop e r fuel (i + r) (i :: acc)

/-- Number of iterations the `generate_1d_grid` loop performs from value `i`
when the resolution `r` is positive (used only to pick a sufficient fuel). -/
def nSteps (e r i : ℚ) : ℕ :=
  if e < i then 0 else (⌊(e - i) / r⌋).toNat + 1

/-- Embedding of `generate_1d_grid(start, end, resolution)`: raises
`RuntimeError("grid resolution cannot be zero")` when `resolution == 0`,
otherwise runs the counting loop.  The fuel `nSteps e r s + 1` is sufficient
exactly when the Python loop terminates (proved below for `0 < r`); when the
loop diverges (negative `r` with `s ≤ e`) every fuel yields `none` and the
result is the `nonTermination` marker. -/
def generate_1d_grid (s e r : ℚ) : Except PyError (List ℚ) :=
  if r = 0 then .error .zeroResolution
  else
    match gridLoop e r (nSteps e r s + 1) s [] with
    | some g => .ok g
    | none => .error .nonTermination

/-- Python `max` on a list of floats (`ValueError` on the empty list is
modelled by `none`). -/
def pyMax : List ℚ → Option ℚ
  | [] => none
  | x :: xs => some (xs.foldl max x)

/-- The scanning loop of `snap_value`: for each `item`,
`delta = abs(value - item)`; `if delta < best_delta: result = item;
best_delta = delta`; `if delta == 0: break`. -/
def snapLoop (v : ℚ) : List ℚ → ℚ → Option ℚ → Option ℚ
  | [], _, res => res
  | item :: rest, best, res =>
    let delta := |v - item|
    let res' := if delta < best then some item else res
    let best' := if delta < best then delta else best
    if delta = 0 then res' else snapLoop v rest best' res'

/-- Embedding of `snap_value(value, grid)`: `best_delta = max(grid) + 1`, scan,
then the defensive check `if result not in grid: raise RuntimeError(...)`.
A scan that never updated `result` leaves it `None`, and `None not in grid`
makes the defensive check fire. -/
def snap_value (v : ℚ) (grid : List ℚ) : Except PyError ℚ :=
  match pyMax grid with
  | none => .error .maxEmpty
  | some m =>
    match snapLoop v grid (m + 1) none with
    | none => .error (.couldNotSnap v)
    | some result => if result ∈ grid then .ok result else .error (.couldNotSnap v)

/-- Python list subscription `l[i]` for an `int` index: negative indices
count from the end of the list, and an index that is still out of range
gives `none` (`IndexError`). -/
def pyGet (l : List ℚ) (i : ℤ) : Option ℚ :=
  let j := if i < 0 then i + l.length else i
  if 0 ≤ j then l.get? j.toNat else none

/-- Embedding of `enlarge_coordinate(value, grid, floor)`.  `grid.index(snapped)` is
`List.indexOf` (the `ok` branch of `snap_value` guarantees membership, so
Python's `ValueError` case is unreachable); `try: grid[idx ± 1] except
IndexError: snapped` is `(pyGet grid _).getD snapped`.  Note that in the
`floor` branch the index `idx - 1` is `-1` when `idx = 0`, which Python
resolves to the *last* element rather than raising `IndexError`. -/
def enlarge_coordinate (v : ℚ) (grid : List ℚ) (floor : Bool) : Except PyError ℚ :=
  match snap_value v grid with
  | .error err => .error err
  | .ok snapped =>
    if floor then
      let next_ := (pyGet grid ((grid.indexOf snapped : ℤ) - 1)).getD snapped
      .ok (if snapped ≤ v then snapped else next_)
    else
      let next_ := (pyGet grid ((grid.indexOf snapped : ℤ) + 1)).getD snapped
      .ok (if v ≤ snapped then snapped else next_)

/-- Embedding of `snap_bbox_to_grid(resolution, x0, y0, x1, y1)`: build the longitude grid
over `[-180, 180]` and the latitude grid over `[-90, 90]`, then enlarge the
four coordinates (`floor` for `x0`, `y0`; not `floor` for `x1`, `y1`),
in the evaluation order of the Python dict literal. -/
def snap_bbox_to_grid (resolution x0 y0 x1 y1 : ℚ) : Except PyError (ℚ × ℚ × ℚ × ℚ) := do
  let x_grid ← generate_1d_grid (-180) 180 resolution
  let y_grid ← generate_1d_grid (-90) 90 resolution
  let a ← enlarge_coordinate x0 x_grid true
  let b ← enlarge_coordinate y0 y_grid true
  let c ← enlarge_coordinate x1 x_grid false
  let d ← enlarge_coordinate y1 y_grid false
  pure (a, b, c, d)

/-- The `k`-th value produced by the grid loop started at `s` with step `r`
(`start + k * resolution`). -/
def gridElem (s r : ℚ) (k : ℕ) : ℚ := s + k * r

/-- Specification-side description of `snap_value` (used for the refinement
claims): the first grid candidate whose absolute distance from `v` is
minimal, following the spec's words "return the candidate with minimum
absolute distance to the target", the earlier candidate winning ties. -/
def earliestNearestSpec (v : ℚ) (grid : List ℚ) : Option ℚ :=
  grid.find? fun c => grid.all fun d => |v - c| ≤ |v - d|

/-! ## The order-intake validation layer

Python strings are `List Char`; `String.data` turns a Lean string literal
into the corresponding Python string value. -/

/-- Python `str.lower()` (ASCII case folding, as `Char.toLower`). -/
def pyLower (s : List Char) : List Char := s.map Char.toLower

/-- Python `str.split(sep)` for a one-character separator:
`"".split(",") == [""]`, `",".split(",") == ["", ""]`. -/
def pySplit (sep : Char) : List Char → List (List Char)
  | [] => [[]]
  | c :: rest =>
    if c = sep then [] :: pySplit sep rest
    else
      match pySplit sep rest with
      | [] => [[c]]
      | w :: ws => (c :: w) :: ws

/-- Python `str.partition(sep)[::2]` for a one-character separator: the part
before the first separator and the part after it (the whole string and `""`
when the separator does not occur). -/
def pyPartition (sep : Char) : List Char → List Char × List Char
  | [] => ([], [])
  | c :: rest =>
    if c = sep then ([], rest)
    else
      let p := pyPartition sep rest
      (c :: p.1, p.2)

/-- Modelled from the spec: the `DatasetType` enumeration lives in
`gfdrr_det/constants.py`, which is not part of the available source; the
spec's glossary lists the dataset kinds "(e.g., exposure, hazard,
vulnerability)" and the serializer dispatches on exactly these three
member names. -/
def datasetTypeMembers : List (List Char) :=
  ["exposure".data, "hazard".data, "vulnerability".data]

/-- Embedding of `_validate_layer(layer_str)`: split at the first `":"`; the collection
must be a `DatasetType` member, else a validation error naming `layer`. -/
def _validate_layer (layer_str : List Char) : Except PyError (List Char × List Char) :=
  let p := pyPartition ':' layer_str
  if p.1 ∈ datasetTypeMembers then .ok p
  else .error (.validation "layer" "invalid collection")

/-- The Django settings consumed by `to_internal_value`, passed explicitly:
`HEV_E["general"]["bbox_snap_resolution"]`, `OSEOSERVER_PROCESSING_OPTIONS`
(each entry is its `name` and its `choices`), and
`HEV_E["EXPOSURES"]["taxonomy_mappings"]["mapping"]` (each category type
with the keys of its allowed-values dict). -/
structure HevConfig where
  bbox_snap_resolution : Option ℚ
  processing_options : List (List Char × List (List Char))
  taxonomy_mapping : List (List Char × List (List Char))

/-- Embedding of `_validate_format(format_str, collection)`: the option name is
`"vulnerabilityFormat"` for the `vulnerability` collection and `"format"`
otherwise; `[i["choices"] for i in options_conf if i["name"] == option_name][0]`
raises `IndexError` on an empty comprehension, otherwise the format must be
one of the choices, else a validation error naming `format`. -/
def _validate_format (conf : List (List Char × List (List Char)))
    (format_str collection : List Char) : Except PyError Unit :=
  let option_name :=
    if collection = "vulnerability".data then "vulnerabilityFormat".data else "format".data
  match (conf.filter fun i => i.1 = option_name).map (fun i => i.2) with
  | [] => .error .indexError
  | format_choices :: _ =>
    if format_str ∈ format_choices then .ok ()
    else .error (.validation "format" "invalid value")

/-- Python `config.get(cat_type, {})` followed by `.keys()`: the allowed
category values for a category type (first matching entry, `[]` if none). -/
def lookupD (m : List (List Char × List (List Char))) (k : List Char) : List (List Char) :=
  ((m.find? fun entry => entry.1 = k).map fun entry => entry.2).getD []

/-- The `for cat_info in taxonomic_categories_str.split(",")` loop of
`_parse_categories`: lowercase the token, split it at `":"` into exactly
two parts (else a validation error), check the category type against the
mapping's keys and the category value against the type's allowed values,
and accumulate the lowercased tokens in order. -/
def parseCategoriesLoop (mapping : List (List Char × List (List Char))) :
    List (List Char) → Except PyError (List (List Char))
  | [] => .ok []
  | cat_info :: rest =>
    let info := pyLower cat_info
    match pySplit ':' info with
    | [cat_type, cat_value] =>
      if cat_type ∈ mapping.map (fun entry => entry.1) then
        if cat_value ∈ lookupD mapping cat_type then
          parseCategoriesLoop mapping rest >>= fun more => .ok (info :: more)
        else .error (.validation "taxonomic_categories" "Invalid category value")
      else .error (.validation "taxonomic_categories" "Invalid category type")
    | _ => .error (.validation "taxonomic_categories" "Invalid category")

/-- Embedding of `_parse_categories(taxonomic_categories_str)`. -/
def _parse_categories (mapping : List (List Char × List (List Char)))
    (s : List Char) : Except PyError (List (List Char)) :=
  parseCategoriesLoop mapping (pySplit ',' s)

/-- Embedding of `_parse_event_ids(raw_event_ids)`: `[int(i) for i in raw_event_ids]`,
a `ValueError` from `int` becoming a validation error naming `event_ids`.
The Python `int` builtin is the explicit parameter `parseInt`. -/
def _parse_event_ids (parseInt : List Char → Option ℤ)
    (raw : List (List Char)) : Except PyError (List ℤ) :=
  match raw.mapM parseInt with
  | some ids => .ok ids
  | none => .error (.validation "event_ids" "Invalid values")

/-- Embedding of `_parse_bbox(bbox_str)`: split at `","`, parse each part as a float;
unpack into exactly four values (any `ValueError` — unparseable part or
wrong part count — gives the validation error naming `bbox`), then check
the longitude/latitude ranges.  The Python `float` builtin is the explicit
parameter `parseFloat`. -/
def _parse_bbox (parseFloat : List Char → Option ℚ)
    (bbox_str : List Char) : Except PyError (ℚ × ℚ × ℚ × ℚ) :=
  match (pySplit ',' bbox_str).map parseFloat with
  | [some x0, some y0, some x1, some y1] =>
    if (-180 ≤ x0 ∧ x0 ≤ 180 ∧ -180 ≤ x1 ∧ x1 ≤ 180)
        ∧ (-90 ≤ y0 ∧ y0 ≤ 90 ∧ -90 ≤ y1 ∧ y1 ≤ 90)
    then .ok (x0, y0, x1, y1)
    else .error (.validation "bbox" "Invalid values. Expecting x0,y0,x1,y1")
  | _ => .error (.validation "bbox" "Invalid numeric values")

/-- One incoming order item of `to_internal_value` (absent JSON keys are
`none`; `item.get("bbox")` etc.). -/
structure OrderItemIn where
  layer : Option (List Char)
  format : Option (List Char)
  bbox : Option (List Char)
  taxonomic_categories : Option (List Char)
  event_ids : Option (List (List Char))
deriving DecidableEq, Repr

/-- One validated order item as built by `to_internal_value` (the
`taxonomic_categories` / `event_ids` keys are present only for the
`exposure` / `hazard` collections respectively, else `none`). -/
structure OrderItemOut where
  layer : List Char
  format : List Char
  bbox : Option (ℚ × ℚ × ℚ × ℚ)
  taxonomic_categories : Option (List (List Char))
  event_ids : Option (List ℤ)
deriving DecidableEq, Repr

/-- The bbox block of the `to_internal_value` item loop:
`if bbox_str:` (absent or empty string means no bbox), parse, then snap to
the grid when `HEV_E["general"]["bbox_snap_resolution"]` is configured and
use the parsed box verbatim when it is `None`. -/
def processBbox (cfg : HevConfig) (parseFloat : List Char → Option ℚ) :
    Option (List Char) → Except PyError (Option (ℚ × ℚ × ℚ × ℚ))
  | none => .ok none
  | some bs =>
    if bs = [] then .ok none
    else
      _parse_bbox parseFloat bs >>= fun p =>
        match cfg.bbox_snap_resolution with
        | none => .ok (some p)
        | some res =>
          snap_bbox_to_grid res p.1 p.2.1 p.2.2.1 p.2.2.2 >>= fun sb => .ok (some sb)

/-- The taxonomic-categories block of the item loop (runs only for the
`exposure` collection and only when the key is present). -/
def processTaxonomic (cfg : HevConfig) (collection : List Char)
    (cats : Option (List Char)) : Except PyError (Option (List (List Char))) :=
  if collection = "exposure".data then
    match cats with
    | some cs => _parse_categories cfg.taxonomy_mapping cs >>= fun l => .ok (some l)
    | none => .ok none
  else .ok none

/-- The event-ids block of the item loop (runs only for the `hazard`
collection and only when the key is present). -/
def processEventIds (parseInt : List Char → Option ℤ) (collection : List Char)
    (ids : Option (List (List Char))) : Except PyError (Option (List ℤ)) :=
  if collection = "hazard".data then
    match ids with
    | some raw => _parse_event_ids parseInt raw >>= fun l => .ok (some l)
    | none => .ok none
  else .ok none

/-- The body of the `for item in requested_items` loop of
`OrderSerializer.to_internal_value`: required `layer`, `_validate_layer`,
required `format` lowercased, `_validate_format`, the bbox block, then the
collection-specific blocks, producing the normalized item. -/
def processOrderItem (cfg : HevConfig) (parseFloat : List Char → Option ℚ)
    (parseInt : List Char → Option ℤ) (item : OrderItemIn) : Except PyError OrderItemOut :=
  let layer := item.layer.getD []
  if layer = [] then .error (.validation "layer" "this field is required")
  else
    _validate_layer layer >>= fun p =>
      let format_ := pyLower (item.format.getD [])
      if format_ = [] then .error (.validation "format" "this field is required")
      else
        _validate_format cfg.processing_options format_ p.1 >>= fun _ =>
          processBbox cfg parseFloat item.bbox >>= fun bbox =>
            processTaxonomic cfg p.1 item.taxonomic_categories >>= fun tax =>
              processEventIds parseInt p.1 item.event_ids >>= fun evs =>
                .ok { layer := layer, format := format_, bbox := bbox,
                      taxonomic_categories := tax, event_ids := evs }

/-- The incoming request body of `to_internal_value`. -/
structure OrderIn where
  order_items : Option (List OrderItemIn)
  notification_email : Option (List Char)

/-- The normalized result of `to_internal_value`. -/
structure OrderOut where
  order_items : List OrderItemOut
  notification_email : Option (List Char)

/-- Embedding of `OrderSerializer.to_internal_value(data)`: `order_items` is required and
must be non-empty (`if not requested_items`), each item is validated in
order (the first error aborting the whole request), and
`notification_email` is passed through when present. -/
def to_internal_value (cfg : HevConfig) (parseFloat : List Char → Option ℚ)
    (parseInt : List Char → Option ℤ) (data : OrderIn) : Except PyError OrderOut :=
  match data.order_items with
  | none => .error (.validation "order_items" "this field is required")
  | some [] => .error (.validation "order_items" "this field is required")
  | some items =>
    match items.mapM (processOrderItem cfg parseFloat parseInt) with
    | .error err => .error err
    | .ok outs => .ok { order_items := outs, notification_email := data.notification_email }

/-! ## Lemmas: the 1-D grid generator -/

lemma nSteps_step (e r i : ℚ) (hr : 0 < r) (h : i ≤ e) :
    nSteps e r (i + r) + 1 = nSteps e r i := by
  unfold nSteps
  rw [if_neg (not_lt.2 h)]
  by_cases h1 : e < i + r
  · rw [if_pos h1]
    have hf : ⌊(e - i) / r⌋ = 0 := by
      rw [Int.floor_eq_zero_iff]
      exact ⟨div_nonneg (by linarith) hr.le, by rw [div_lt_one hr]; linarith⟩
    simp [hf]
  · rw [if_neg h1]
    push_neg at h1
    have key : (e - (i + r)) / r = (e - i) / r - 1 := by
      field_simp
      ring
    rw [key, Int.floor_sub_one]
    have h2 : 1 ≤ ⌊(e - i) / r⌋ := by
      rw [Int.le_floor]
      push_cast
      rw [le_div_iff₀ hr]
      linarith
    omega

lemma gridLoop_eq (e r : ℚ) (hr : 0 < r) :
    ∀ (fuel : ℕ) (i : ℚ) (acc : List ℚ), nSteps e r i < fuel →
      gridLoop e r fuel i acc
        = some (acc.reverse ++ (List.range (nSteps e r i)).map (gridElem i r)) := by
  intro fuel
  induction fuel with
  | zero => intro i acc h; exact absurd h (Nat.not_lt_zero _)
  | succ fuel ih =>
    intro i acc h
    rw [gridLoop]
    by_cases hb : e < i
    · rw [if_pos hb]
      have h0 : nSteps e r i = 0 := if_pos hb
      rw [h0]
      simp
    · rw [if_neg hb]
      have hle : i ≤ e := not_lt.1 hb
      have hstep := nSteps_step e r i hr hle
      have hlt : nSteps e r (i + r) < fuel := by omega
      rw [ih (i + r) (i :: acc) hlt]
      have hmap : (List.range (nSteps e r (i + r) + 1)).map (gridElem i r)
          = i :: ((List.range (nSteps e r (i + r))).map (gridElem (i + r) r)) := by
        rw [List.range_succ_eq_map, List.map_cons, List.map_map]
        refine congrArg₂ _ ?_ ?_
        · show gridElem i r 0 = i
          simp [gridElem]
        · refine List.map_congr_left fun k _ => ?_
          show gridElem i r (Nat.succ k) = gridElem (i + r) r k
          unfold gridElem
          push_cast
          ring
      rw [← hstep, hmap, List.reverse_cons, List.append_assoc]
      rfl

lemma generate_1d_grid_eq (s e r : ℚ) (hr : 0 < r) :
    generate_1d_grid s e r = .ok ((List.range (nSteps e r s)).map (gridElem s r)) := by
  unfold generate_1d_grid
  rw [if_neg hr.ne', gridLoop_eq e r hr _ s [] (Nat.lt_succ_self _)]
  simp

lemma gridElem_le (s e r : ℚ) (hr : 0 < r) (hse : s ≤ e) (k : ℕ)
    (hk : k ≤ (⌊(e - s) / r⌋).toNat) : gridElem s r k ≤ e := by
  have hq0 : (0 : ℤ) ≤ ⌊(e - s) / r⌋ :=
    Int.le_floor.2 (by push_cast; exact div_nonneg (by linarith) hr.le)
  have hkz : (k : ℤ) ≤ ⌊(e - s) / r⌋ := by omega
  have hkq : (k : ℚ) ≤ (e - s) / r := by
    have := Int.le_floor.1 hkz
    exact_mod_cast this
  rw [le_div_iff₀ hr] at hkq
  unfold gridElem
  linarith

lemma le_of_gridElem_le (s e r : ℚ) (hr : 0 < r) (k : ℕ)
    (hk : gridElem s r k ≤ e) : k ≤ (⌊(e - s) / r⌋).toNat := by
  unfold gridElem at hk
  have hkq : (k : ℚ) ≤ (e - s) / r := by
    rw [le_div_iff₀ hr]
    linarith
  have : (k : ℤ) ≤ ⌊(e - s) / r⌋ := Int.le_floor.2 (by exact_mod_cast hkq)
  omega

lemma grid_pairwise (s r : ℚ) (hr : 0 < r) (n : ℕ) :
    ((List.range n).map (gridElem s r)).Pairwise (· < ·) := by
  refine List.pairwise_map.mpr <| (List.pairwise_lt_range n).imp fun hab => ?_
  unfold gridElem
  have : ((_ : ℕ) : ℚ) < _ := Nat.cast_lt.2 hab
  nlinarith [this]

lemma gridLoop_none (e r : ℚ) (hr : r < 0) :
    ∀ (fuel : ℕ) (i : ℚ) (acc : List ℚ), i ≤ e → gridLoop e r fuel i acc = none := by
  intro fuel
  induction fuel with
  | zero => intro i acc _; rfl
  | succ fuel ih =>
    intro i acc h
    rw [gridLoop, if_neg (not_lt.2 h)]
    exact ih (i + r) (i :: acc) (by linarith)

/-! ## Claims C4, C5, C9 -/

/-- C4: for `start ≤ end` and resolution `r > 0`, `generate_1d_grid` returns
the strictly ascending sequence `start, start + r, start + 2r, …` whose last
element is the largest value of the form `start + k * r` not exceeding
`end`, and which contains no value greater than `end`. -/
theorem claim_C4_generate_grid (s e r : ℚ) (hr : 0 < r) (hse : s ≤ e) :
    ∃ n : ℕ,
      generate_1d_grid s e r = .ok ((List.range (n + 1)).map (gridElem s r)) ∧
      ((List.range (n + 1)).map (gridElem s r)).Pairwise (· < ·) ∧
      (∀ x ∈ (List.range (n + 1)).map (gridElem s r), x ≤ e) ∧
      ((List.range (n + 1)).map (gridElem s r)).getLast? = some (gridElem s r n) ∧
      ∀ k : ℕ, gridElem s r k ≤ e → gridElem s r k ≤ gridElem s r n := by
  refine ⟨(⌊(e - s) / r⌋).toNat, ?_, grid_pairwise s r hr _, ?_, ?_, ?_⟩
  · have hn : nSteps e r s = (⌊(e - s) / r⌋).toNat + 1 := if_neg (not_lt.2 hse)
    rw [generate_1d_grid_eq s e r hr, hn]
  · intro x hx
    obtain ⟨k, hk, rfl⟩ := List.mem_map.1 hx
    rw [List.mem_range] at hk
    exact gridElem_le s e r hr hse k (by omega)
  · rw [List.range_succ, List.map_append]
    exact List.getLast?_concat _
  · intro k hk
    have h1 : k ≤ (⌊(e - s) / r⌋).toNat := le_of_gridElem_le s e r hr k hk
    unfold gridElem
    have : (k : ℚ) ≤ ((⌊(e - s) / r⌋).toNat : ℚ) := Nat.cast_le.2 h1
    nlinarith [this]

theorem claim_C4_generate_grid_witness : ∃ n : ℕ,
      generate_1d_grid 0 2 1 = .ok ((List.range (n + 1)).map (gridElem 0 1)) ∧
      ((List.range (n + 1)).map (gridElem 0 1)).Pairwise (· < ·) ∧
      (∀ x ∈ (List.range (n + 1)).map (gridElem 0 1), x ≤ 2) ∧
      ((List.range (n + 1)).map (gridElem 0 1)).getLast? = some (gridElem 0 1 n) ∧
      ∀ k : ℕ, gridElem 0 1 k ≤ 2 → gridElem 0 1 k ≤ gridElem 0 1 n :=
  claim_C4_generate_grid 0 2 1 (by norm_num) (by norm_num)

/-- C5: `generate_1d_grid(start, end, 0)` always fails with the
zero-resolution `RuntimeError` and never returns normally. -/
theorem claim_C5_zero_resolution (s e : ℚ) :
    generate_1d_grid s e 0 = .error .zeroResolution := by
  unfold generate_1d_grid
  simp

/-- C9: for `start ≤ end` and a negative resolution, the counting loop of
`generate_1d_grid` never reaches its exit condition — no amount of fuel
makes `gridLoop` return — so `generate_1d_grid` is total only for positive
resolutions; its fuelled embedding reports the divergence marker. -/
theorem claim_C9_negative_resolution_divergence (s e r : ℚ) (fuel : ℕ) (acc : List ℚ)
    (hr : r < 0) (hse : s ≤ e) :
    gridLoop e r fuel s acc = none ∧ generate_1d_grid s e r = .error .nonTermination := by
  refine ⟨gridLoop_none e r hr fuel s acc hse, ?_⟩
  unfold generate_1d_grid
  rw [if_neg hr.ne, gridLoop_none e r hr _ s [] hse]

theorem claim_C9_negative_resolution_divergence_witness :
    gridLoop 0 (-1) 5 0 [] = none ∧ generate_1d_grid 0 0 (-1) = .error .nonTermination :=
  claim_C9_negative_resolution_divergence 0 0 (-1) 5 [] (by norm_num) le_rfl

/-! ## Lemmas: nearest-value snap -/

lemma foldl_max_spec : ∀ (xs : List ℚ) (x : ℚ),
    xs.foldl max x ∈ x :: xs ∧ ∀ y ∈ x :: xs, y ≤ xs.foldl max x := by
  intro xs
  induction xs with
  | nil => intro x; simp
  | cons z t ih =>
    intro x
    rw [List.foldl_cons]
    obtain ⟨hmem, hle⟩ := ih (max x z)
    constructor
    · rcases List.mem_cons.1 hmem with h | h
      · rcases max_choice x z with hx | hz
        · rw [h, hx]; exact List.mem_cons_self _ _
        · rw [h, hz]; exact List.mem_cons_of_mem _ (List.mem_cons_self _ _)
      · exact List.mem_cons_of_mem _ (List.mem_cons_of_mem _ h)
    · intro y hy
      rcases List.mem_cons.1 hy with h | h
      · subst h
        exact le_trans (le_max_left _ _) (hle _ (List.mem_cons_self _ _))
      · rcases List.mem_cons.1 h with h' | h'
        · subst h'
          exact le_trans (le_max_right _ _) (hle _ (List.mem_cons_self _ _))
        · exact hle _ (List.mem_cons_of_mem _ h')

lemma pyMax_spec (l : List ℚ) (m : ℚ) (h : pyMax l = some m) :
    m ∈ l ∧ ∀ y ∈ l, y ≤ m := by
  match l with
  | [] => exact absurd h (by simp [pyMax])
  | x :: xs =>
    have hm : m = xs.foldl max x := by
      simpa [pyMax] using h.symm
    subst hm
    exact foldl_max_spec xs x

lemma pyMax_eq_of_greatest (l : List ℚ) (m : ℚ) (hmem : m ∈ l) (hle : ∀ y ∈ l, y ≤ m) :
    pyMax l = some m := by
  match l with
  | [] => exact absurd hmem (by simp)
  | x :: xs =>
    obtain ⟨h1, h2⟩ := foldl_max_spec xs x
    have := le_antisymm (h2 m hmem) (hle _ h1)
    simp [pyMax, this]

lemma find?_decomp {α : Type} (p : α → Bool) :
    ∀ (l : List α) (c : α), l.find? p = some c →
      p c = true ∧ ∃ l1 l2, l = l1 ++ c :: l2 ∧ ∀ y ∈ l1, p y = false := by
  intro l
  induction l with
  | nil => intro c h; exact absurd h (by simp)
  | cons x t ih =>
    intro c h
    rw [List.find?_cons] at h
    cases hpx : p x with
    | true =>
      rw [hpx] at h
      simp only [] at h
      obtain rfl : x = c := by simpa using h
      exact ⟨hpx, [], t, rfl, by simp⟩
    | false =>
      rw [hpx] at h
      simp only [] at h
      obtain ⟨hpc, l1, l2, rfl, hl1⟩ := ih c h
      refine ⟨hpc, x :: l1, l2, rfl, ?_⟩
      intro y hy
      rcases List.mem_cons.1 hy with h' | h'
      · subst h'; exact hpx
      · exact hl1 y h'

lemma earliest_spec (v : ℚ) (grid : List ℚ) (c : ℚ)
    (h : earliestNearestSpec v grid = some c) :
    c ∈ grid ∧ (∀ d ∈ grid, |v - c| ≤ |v - d|) ∧
      ∃ l1 l2, grid = l1 ++ c :: l2 ∧ ∀ y ∈ l1, |v - c| < |v - y| := by
  obtain ⟨hpc, l1, l2, hdec, hl1⟩ := find?_decomp _ grid c h
  have hmin : ∀ d ∈ grid, |v - c| ≤ |v - d| := by
    intro d hd
    have := List.all_eq_true.1 hpc d hd
    simpa using this
  refine ⟨?_, hmin, l1, l2, hdec, ?_⟩
  · rw [hdec]; exact List.mem_append_right _ (List.mem_cons_self _ _)
  · intro y hy
    have := hl1 y hy
    rw [List.all_eq_false] at this
    obtain ⟨d, hd, hdlt⟩ := this
    simp only [decide_eq_true_eq] at hdlt
    push_neg at hdlt
    exact lt_of_le_of_lt (hmin d hd) hdlt

lemma exists_min_dist (v : ℚ) : ∀ (l : List ℚ), l ≠ [] →
    ∃ c ∈ l, ∀ d ∈ l, |v - c| ≤ |v - d| := by
  intro l
  induction l with
  | nil => intro h; exact absurd rfl h
  | cons x t ih =>
    intro _
    rcases eq_or_ne t [] with rfl | ht
    · exact ⟨x, List.mem_cons_self _ _, by simp⟩
    · obtain ⟨c, hc, hmin⟩ := ih ht
      rcases le_total (|v - x|) (|v - c|) with h | h
      · refine ⟨x, List.mem_cons_self _ _, ?_⟩
        intro d hd
        rcases List.mem_cons.1 hd with rfl | hd'
        · exact le_refl _
        · exact le_trans h (hmin d hd')
      · refine ⟨c, List.mem_cons_of_mem _ hc, ?_⟩
        intro d hd
        rcases List.mem_cons.1 hd with rfl | hd'
        · exact h
        · exact hmin d hd'

lemma earliest_exists (v : ℚ) (grid : List ℚ) (h : grid ≠ []) :
    ∃ c, earliestNearestSpec v grid = some c := by
  obtain ⟨c, hc, hmin⟩ := exists_min_dist v grid h
  have : (grid.find? fun c => grid.all fun d => |v - c| ≤ |v - d|).isSome := by
    rw [List.find?_isSome]
    exact ⟨c, hc, List.all_eq_true.2 fun d hd => decide_eq_true (hmin d hd)⟩
  exact Option.isSome_iff_exists.1 this

lemma snapLoop_const (v : ℚ) : ∀ (l : List ℚ) (best : ℚ) (res : Option ℚ),
    (∀ x ∈ l, best ≤ |v - x|) → snapLoop v l best res = res := by
  intro l
  induction l with
  | nil => intro best res _; rfl
  | cons item rest ih =>
    intro best res h
    have hge : ¬ |v - item| < best := not_lt.2 (h item (List.mem_cons_self _ _))
    rw [snapLoop]
    simp only [if_neg hge]
    split
    · rfl
    · exact ih best res fun x hx => h x (List.mem_cons_of_mem _ hx)

lemma snapLoop_finds (v c : ℚ) (l2 : List ℚ) (h2 : ∀ y ∈ l2, |v - c| ≤ |v - y|) :
    ∀ (l1 : List ℚ) (best : ℚ) (res : Option ℚ),
      (∀ y ∈ l1, |v - c| < |v - y|) → |v - c| < best →
      snapLoop v (l1 ++ c :: l2) best res = some c := by
  intro l1
  induction l1 with
  | nil =>
    intro best res _ hb
    rw [List.nil_append, snapLoop]
    simp only [if_pos hb]
    split
    · rfl
    · exact snapLoop_const v l2 _ _ fun x hx => h2 x hx
  | cons x l1' ih =>
    intro best res h1 hb
    have hxgt : |v - c| < |v - x| := h1 x (List.mem_cons_self _ _)
    have hxne : ¬ |v - x| = 0 := by
      have : (0:ℚ) ≤ |v - c| := abs_nonneg _
      intro h0
      rw [h0] at hxgt
      linarith
    rw [List.cons_append, snapLoop]
    simp only [if_neg hxne]
    by_cases hlt : |v - x| < best
    · rw [if_pos hlt]
      exact ih _ _ (fun y hy => h1 y (List.mem_cons_of_mem _ hy)) hxgt
    · rw [if_neg hlt]
      exact ih _ _ (fun y hy => h1 y (List.mem_cons_of_mem _ hy)) hb

lemma snap_value_earliest (v : ℚ) (grid : List ℚ) (m c : ℚ)
    (hmax : pyMax grid = some m) (hc : earliestNearestSpec v grid = some c)
    (hd : |v - c| < m + 1) : snap_value v grid = .ok c := by
  obtain ⟨hmem, hmin, l1, l2, hdec, hl1⟩ := earliest_spec v grid c hc
  have hloop : snapLoop v grid (m + 1) none = some c := by
    rw [hdec]
    exact snapLoop_finds v c l2
      (fun y hy => hmin y
        (by rw [hdec]; exact List.mem_append_right _ (List.mem_cons_of_mem _ hy)))
      l1 (m + 1) none hl1 hd
  unfold snap_value
  rw [hmax]
  dsimp only
  rw [hloop]
  dsimp only
  rw [if_pos hmem]

lemma snapLoop_break (v : ℚ) : ∀ (l1 : List ℚ) (best : ℚ) (res : Option ℚ) (l2 l2' : List ℚ),
    snapLoop v (l1 ++ v :: l2) best res = snapLoop v (l1 ++ v :: l2') best res := by
  intro l1
  induction l1 with
  | nil =>
    intro best res l2 l2'
    rw [List.nil_append, List.nil_append, snapLoop, snapLoop]
    simp
  | cons x l1' ih =>
    intro best res l2 l2'
    rw [List.cons_append, List.cons_append, snapLoop, snapLoop]
    by_cases h0 : |v - x| = 0
    · simp only [if_pos h0]
    · simp only [if_neg h0]
      exact ih _ _ l2 l2'

/-! ## Claims C3, C6 -/

/-- C3 as stated is false: the initialization `best_delta = max(grid) + 1`
is not larger than every possible distance, so on the one-element grid
`[-1.0]`, which contains the value `-1.0`, the scan never records a result
(`0 < best_delta` fails because `best_delta = 0`) and `snap_value` raises
its `RuntimeError` instead of returning the value. -/
theorem claim_C3_counterexample :
    snap_value (-1) [-1] = .error (.couldNotSnap (-1)) := by decide

/-- C3 amended: for every value `v` and non-empty grid containing `v`
*whose maximum exceeds `-1`* (so that the sentinel `max(grid) + 1` is
positive), `snap_value` returns `v` exactly, without error. -/
theorem claim_C3_amended (v : ℚ) (grid : List ℚ) (m : ℚ) (hmem : v ∈ grid)
    (hmax : pyMax grid = some m) (hm : -1 < m) : snap_value v grid = .ok v := by
  have hne : grid ≠ [] := by
    intro h
    rw [h] at hmem
    exact absurd hmem (List.not_mem_nil v)
  obtain ⟨c, hc⟩ := earliest_exists v grid hne
  obtain ⟨_, hmin, _⟩ := earliest_spec v grid c hc
  have h0 : |v - c| = 0 := by
    have := hmin v hmem
    rw [sub_self, abs_zero] at this
    exact le_antisymm this (abs_nonneg _)
  have hcv : c = v := by
    rw [abs_eq_zero, sub_eq_zero] at h0
    exact h0.symm
  have hres := snap_value_earliest v grid m c hmax hc (by rw [h0]; linarith)
  rw [hres, hcv]

theorem claim_C3_amended_witness : snap_value 5 [5] = Except.ok 5 :=
  claim_C3_amended 5 [5] 5 (by decide) (by decide) (by norm_num)

/-- C6 as stated is false: when every candidate is at distance at least
`max(grid) + 1` from the target, no candidate is ever recorded and
`snap_value` raises its `RuntimeError` instead of returning the nearest
candidate — here the nearest candidate to `2` in `[0]` is `0`. -/
theorem claim_C6_counterexample :
    snap_value 2 [0] = .error (.couldNotSnap 2) := by decide

/-- C6 amended: whenever the earliest minimal-distance candidate `c` is at
distance less than `max(grid) + 1` from the target (the scan's
initialization value), `snap_value` returns exactly that candidate — the
minimum-distance candidate, ties resolved to the earlier one — and the
scan short-circuits at the first zero-distance candidate: everything after
an exact match is ignored. -/
theorem claim_C6_amended :
    (∀ (v : ℚ) (grid : List ℚ) (m c : ℚ),
      pyMax grid = some m → earliestNearestSpec v grid = some c → |v - c| < m + 1 →
      snap_value v grid = Except.ok c)
    ∧ ∀ (v : ℚ) (l1 l2 l2' : List ℚ) (best : ℚ),
        snapLoop v (l1 ++ v :: l2) best none = snapLoop v (l1 ++ v :: l2') best none :=
  ⟨fun v grid m c hmax hc hd => snap_value_earliest v grid m c hmax hc hd,
   fun v l1 l2 l2' best => snapLoop_break v l1 best none l2 l2'⟩

theorem claim_C6_amended_witness : snap_value 2 [0, 1, 3] = Except.ok 1 ∧
    snapLoop 2 ([0] ++ 2 :: [7]) 5 none = snapLoop 2 ([0] ++ 2 :: [9]) 5 none :=
  ⟨claim_C6_amended.1 2 [0, 1, 3] 3 1 (by decide) (by decide) (by norm_num),
   claim_C6_amended.2 2 [0] [7] [9] 5⟩

/-! ## Lemmas: snapping and enlarging on a uniform grid -/

lemma gridElem_mono (s r : ℚ) (hr : 0 ≤ r) {k m : ℕ} (h : k ≤ m) :
    gridElem s r k ≤ gridElem s r m := by
  unfold gridElem
  have hc : (k : ℚ) ≤ m := Nat.cast_le.2 h
  nlinarith [hc]

lemma uniformGrid_length (s r : ℚ) (n : ℕ) :
    ((List.range (n + 1)).map (gridElem s r)).length = n + 1 := by simp

lemma uniformGrid_get (s r : ℚ) (n k : ℕ)
    (h2 : k < ((List.range (n + 1)).map (gridElem s r)).length) :
    ((List.range (n + 1)).map (gridElem s r)).get ⟨k, h2⟩ = gridElem s r k := by
  simp

lemma uniformGrid_mem (s r : ℚ) (n k : ℕ) (hk : k ≤ n) :
    gridElem s r k ∈ (List.range (n + 1)).map (gridElem s r) :=
  List.mem_map.2 ⟨k, List.mem_range.2 (by omega), rfl⟩

lemma uniformGrid_nodup (s r : ℚ) (hr : 0 < r) (n : ℕ) :
    ((List.range (n + 1)).map (gridElem s r)).Nodup :=
  (grid_pairwise s r hr (n + 1)).imp ne_of_lt

lemma uniformGrid_indexOf (s r : ℚ) (hr : 0 < r) (n k : ℕ) (hk : k ≤ n) :
    ((List.range (n + 1)).map (gridElem s r)).indexOf (gridElem s r k) = k := by
  have h2 : k < ((List.range (n + 1)).map (gridElem s r)).length := by
    rw [uniformGrid_length]; omega
  have hget := uniformGrid_get s r n k h2
  rw [← hget]
  exact List.get_indexOf (uniformGrid_nodup s r hr n) _

lemma uniformGrid_pyMax (s r : ℚ) (hr : 0 < r) (n : ℕ) :
    pyMax ((List.range (n + 1)).map (gridElem s r)) = some (gridElem s r n) := by
  refine pyMax_eq_of_greatest _ _ (uniformGrid_mem s r n n le_rfl) ?_
  intro y hy
  obtain ⟨k, hk, rfl⟩ := List.mem_map.1 hy
  rw [List.mem_range] at hk
  exact gridElem_mono s r hr.le (by omega)

lemma uniformGrid_get? (s r : ℚ) (n k : ℕ) (hk : k ≤ n) :
    ((List.range (n + 1)).map (gridElem s r)).get? k = some (gridElem s r k) := by
  have h2 : k < ((List.range (n + 1)).map (gridElem s r)).length := by
    rw [uniformGrid_length]; omega
  rw [List.get?_eq_get h2, uniformGrid_get]

lemma uniformGrid_get?_none (s r : ℚ) (n k : ℕ) (hk : n < k) :
    ((List.range (n + 1)).map (gridElem s r)).get? k = none := by
  rw [List.get?_eq_none]
  rw [uniformGrid_length]
  omega

lemma pyGet_nat (l : List ℚ) (k : ℕ) : pyGet l (k : ℤ) = l.get? k := by
  have h1 : ¬ ((k : ℤ) < 0) := by omega
  have h2 : (0 : ℤ) ≤ (k : ℤ) := by omega
  simp [pyGet, h1, h2]

lemma uniform_near (s r v : ℚ) (hr : 0 < r) (n : ℕ) (hv : s ≤ v)
    (hv' : v ≤ gridElem s r n) :
    ∃ k, k ≤ n ∧ |v - gridElem s r k| ≤ r / 2 := by
  have hrne : r ≠ 0 := hr.ne'
  set t := (v - s) / r with hts
  have ht0 : 0 ≤ t := div_nonneg (by linarith) hr.le
  have htn : t ≤ n := by
    rw [hts, div_le_iff₀ hr]
    unfold gridElem at hv'
    linarith
  have hK0 : 0 ≤ ⌊t + 1/2⌋ := Int.le_floor.2 (by push_cast; linarith)
  have hKt : ((⌊t + 1/2⌋ : ℤ) : ℚ) ≤ t + 1/2 := Int.floor_le _
  have hKt2 : t + 1/2 - 1 < ⌊t + 1/2⌋ := Int.sub_one_lt_floor _
  have hKn : ⌊t + 1/2⌋ ≤ (n : ℤ) := by
    have h1 : ((⌊t + 1/2⌋ : ℤ) : ℚ) < (n : ℚ) + 1 := by linarith
    have h2 : (⌊t + 1/2⌋ : ℤ) < (n : ℤ) + 1 := by exact_mod_cast h1
    omega
  refine ⟨(⌊t + 1/2⌋).toNat, by omega, ?_⟩
  have hcast : (((⌊t + 1/2⌋).toNat : ℕ) : ℚ) = ((⌊t + 1/2⌋ : ℤ) : ℚ) := by
    have h := Int.toNat_of_nonneg hK0
    exact_mod_cast congrArg (fun z : ℤ => (z : ℚ)) h
  have hv_eq : v = s + t * r := by
    rw [hts]
    field_simp
  unfold gridElem
  rw [hcast, hv_eq]
  have habs : |s + t * r - (s + ((⌊t + 1/2⌋ : ℤ) : ℚ) * r)| = |t - ((⌊t + 1/2⌋ : ℤ) : ℚ)| * r := by
    rw [show s + t * r - (s + ((⌊t + 1/2⌋ : ℤ) : ℚ) * r) = (t - ((⌊t + 1/2⌋ : ℤ) : ℚ)) * r by ring]
    rw [abs_mul, abs_of_pos hr]
  rw [habs]
  have hb : |t - ((⌊t + 1/2⌋ : ℤ) : ℚ)| ≤ 1/2 := by
    rw [abs_le]
    constructor <;> linarith
  calc |t - ((⌊t + 1/2⌋ : ℤ) : ℚ)| * r ≤ (1/2) * r := by nlinarith [hb, hr]
    _ = r / 2 := by ring

lemma snap_uniform (s r v : ℚ) (hr : 0 < r) (n : ℕ) (hv : s ≤ v)
    (hv' : v ≤ gridElem s r n) (hbig : r / 2 < gridElem s r n + 1) :
    ∃ c, earliestNearestSpec v ((List.range (n + 1)).map (gridElem s r)) = some c ∧
      snap_value v ((List.range (n + 1)).map (gridElem s r)) = .ok c ∧ |v - c| ≤ r / 2 := by
  have hne : (List.range (n + 1)).map (gridElem s r) ≠ [] := by
    intro h
    have := congrArg List.length h
    rw [uniformGrid_length] at this
    simp at this
  obtain ⟨c, hc⟩ := earliest_exists v _ hne
  obtain ⟨hmemc, hmin, _⟩ := earliest_spec v _ c hc
  obtain ⟨k, hk, hnear⟩ := uniform_near s r v hr n hv hv'
  have hdist : |v - c| ≤ r / 2 :=
    le_trans (hmin _ (uniformGrid_mem s r n k hk)) hnear
  exact ⟨c, hc, snap_value_earliest v _ (gridElem s r n) c
    (uniformGrid_pyMax s r hr n) hc (lt_of_le_of_lt hdist hbig), hdist⟩

lemma indexOf_append_cons_self (c : ℚ) : ∀ (l1 l2 : List ℚ), c ∉ l1 →
    (l1 ++ c :: l2).indexOf c = l1.length := by
  intro l1
  induction l1 with
  | nil => intro l2 _; exact List.indexOf_cons_self c l2
  | cons x t ih =>
    intro l2 hc
    have hxc : x ≠ c := fun h => hc (List.mem_cons.2 (Or.inl h.symm))
    rw [List.cons_append, List.indexOf_cons_ne _ hxc]
    rw [ih l2 (fun h => hc (List.mem_cons_of_mem _ h))]
    simp [List.length_cons]

lemma enlarge_floor_uniform (s r v : ℚ) (hr : 0 < r) (n : ℕ) (hv : s ≤ v)
    (hv' : v ≤ gridElem s r n) (hbig : r / 2 < gridElem s r n + 1) :
    ∃ a, enlarge_coordinate v ((List.range (n + 1)).map (gridElem s r)) true = .ok a ∧
      a ≤ v ∧ a ∈ (List.range (n + 1)).map (gridElem s r) := by
  obtain ⟨c, hc, hsnap, _⟩ := snap_uniform s r v hr n hv hv' hbig
  obtain ⟨hmemc, hmin, l1, l2, hdec, hl1⟩ := earliest_spec v _ c hc
  obtain ⟨i, hik, hci⟩ := List.mem_map.1 hmemc
  rw [List.mem_range] at hik
  unfold enlarge_coordinate
  rw [hsnap]
  dsimp only
  rw [if_pos rfl]
  by_cases hcv : c ≤ v
  · exact ⟨c, by rw [if_pos hcv], hcv, hmemc⟩
  · push_neg at hcv
    rw [if_neg (not_le.2 hcv)]
    have hi1 : 1 ≤ i := by
      by_contra h0
      push_neg at h0
      interval_cases i
      · rw [← hci] at hcv
        unfold gridElem at hcv
        push_cast at hcv
        linarith
    have hidx : ((List.range (n + 1)).map (gridElem s r)).indexOf c = i := by
      rw [← hci]
      exact uniformGrid_indexOf s r hr n i (by omega)
    rw [hidx]
    have hstep : ((i : ℤ) - 1) = ((i - 1 : ℕ) : ℤ) := by omega
    rw [hstep, pyGet_nat, uniformGrid_get? s r n (i - 1) (by omega)]
    set a := gridElem s r (i - 1) with ha
    refine ⟨a, rfl, ?_, uniformGrid_mem s r n (i - 1) (by omega)⟩
    by_contra hav
    push_neg at hav
    have hmema : a ∈ l1 := by
      have hlen1 : l1.length = i := by
        have hcnot : c ∉ l1 := by
          intro hcl1
          exact absurd (hl1 c hcl1) (lt_irrefl _)
        rw [← indexOf_append_cons_self c l1 l2 hcnot, ← hdec, hidx]
      have hi3 : i - 1 < l1.length := by omega
      have hga : ((List.range (n + 1)).map (gridElem s r)).get? (i - 1) = some a := by
        rw [uniformGrid_get? s r n (i - 1) (by omega), ha]
      rw [hdec, List.get?_append hi3] at hga
      exact List.get?_mem hga
    have hlt := hl1 a hmema
    have hca : a = c - r := by
      rw [ha, ← hci]
      unfold gridElem
      have : ((i - 1 : ℕ) : ℚ) = (i : ℚ) - 1 := by
        push_cast [hi1]
        ring
      rw [this]
      ring
    have hdc : |v - c| = c - v := by
      rw [abs_of_neg (by linarith)]
      ring
    have hda : |v - a| = a - v := by
      rw [abs_of_neg (by linarith)]
      ring
    rw [hdc, hda, hca] at hlt
    linarith

lemma enlarge_ceil_uniform (s r v : ℚ) (hr : 0 < r) (n : ℕ) (hv : s ≤ v)
    (hv' : v ≤ gridElem s r n) (hbig : r / 2 < gridElem s r n + 1) :
    ∃ d, enlarge_coordinate v ((List.range (n + 1)).map (gridElem s r)) false = .ok d ∧
      v ≤ d ∧ d ∈ (List.range (n + 1)).map (gridElem s r) := by
  obtain ⟨c, hc, hsnap, _⟩ := snap_uniform s r v hr n hv hv' hbig
  obtain ⟨hmemc, hmin, _⟩ := earliest_spec v _ c hc
  obtain ⟨i, hik, hci⟩ := List.mem_map.1 hmemc
  rw [List.mem_range] at hik
  unfold enlarge_coordinate
  rw [hsnap]
  dsimp only
  rw [if_neg (Bool.false_ne_true)]
  by_cases hvc : v ≤ c
  · exact ⟨c, by rw [if_pos hvc], hvc, hmemc⟩
  · push_neg at hvc
    rw [if_neg (not_le.2 hvc)]
    have hin : i < n := by
      rcases Nat.lt_or_ge i n with h | h
      · exact h
      · exfalso
        have : i = n := by omega
        rw [this] at hci
        rw [← hci] at hvc
        linarith
    have hidx : ((List.range (n + 1)).map (gridElem s r)).indexOf c = i := by
      rw [← hci]
      exact uniformGrid_indexOf s r hr n i (by omega)
    rw [hidx]
    have hstep : ((i : ℤ) + 1) = ((i + 1 : ℕ) : ℤ) := by omega
    rw [hstep, pyGet_nat, uniformGrid_get? s r n (i + 1) (by omega)]
    set d := gridElem s r (i + 1) with hd
    refine ⟨d, rfl, ?_, uniformGrid_mem s r n (i + 1) (by omega)⟩
    by_contra hdv
    push_neg at hdv
    have hcd : c < d := by
      rw [hd, ← hci]
      unfold gridElem
      push_cast
      nlinarith [hr]
    have := hmin d (uniformGrid_mem s r n (i + 1) (by omega))
    have hdc : |v - c| = v - c := by
      rw [abs_of_pos (by linarith)]
    have hdd : |v - d| = v - d := by
      rw [abs_of_pos (by linarith)]
    rw [hdc, hdd] at this
    linarith

lemma find?_map_range (p : ℚ → Bool) : ∀ (n : ℕ) (f : ℕ → ℚ) (k : ℕ), k < n →
    (∀ j, j < k → p (f j) = false) → p (f k) = true →
    ((List.range n).map f).find? p = some (f k) := by
  intro n
  induction n with
  | zero => intro f k hk; omega
  | succ n ih =>
    intro f k hk hlow hpk
    rw [List.range_succ_eq_map, List.map_cons, List.map_map, List.find?_cons]
    cases k with
    | zero =>
      rw [hpk]
    | succ k' =>
      rw [hlow 0 (by omega)]
      exact ih (f ∘ Nat.succ) k' (by omega) (fun j hj => hlow (j + 1) (by omega)) hpk

lemma earliest_uniform_midpoint (s r v : ℚ) (hr : 0 < r) (n k : ℕ) (hk : k ≤ n)
    (h1 : gridElem s r k - r / 2 < v) (h2 : v ≤ gridElem s r k + r / 2) :
    earliestNearestSpec v ((List.range (n + 1)).map (gridElem s r))
      = some (gridElem s r k) := by
  have habs : |v - gridElem s r k| ≤ r / 2 := by
    rw [abs_le]
    constructor <;> linarith
  have hmin : ∀ j : ℕ, j ≤ n → |v - gridElem s r k| ≤ |v - gridElem s r j| := by
    intro j hj
    rcases lt_trichotomy j k with h | h | h
    · have hj1 : j + 1 ≤ k := h
      have : gridElem s r j + r ≤ gridElem s r k := by
        have := gridElem_mono s r hr.le hj1
        unfold gridElem at this ⊢
        push_cast at this ⊢
        linarith
      have hpos : r / 2 < v - gridElem s r j := by linarith
      rw [abs_of_pos (by linarith : (0:ℚ) < v - gridElem s r j)]
      linarith
    · rw [h]
    · have hj1 : k + 1 ≤ j := h
      have : gridElem s r k + r ≤ gridElem s r j := by
        have := gridElem_mono s r hr.le hj1
        unfold gridElem at this ⊢
        push_cast at this ⊢
        linarith
      have hpos : r / 2 ≤ gridElem s r j - v := by linarith
      rw [abs_of_neg (by linarith : v - gridElem s r j < 0)]
      linarith
  have hstrict : ∀ j : ℕ, j < k → |v - gridElem s r k| < |v - gridElem s r j| := by
    intro j hj
    have hj1 : j + 1 ≤ k := hj
    have : gridElem s r j + r ≤ gridElem s r k := by
      have := gridElem_mono s r hr.le hj1
      unfold gridElem at this ⊢
      push_cast at this ⊢
      linarith
    have hpos : r / 2 < v - gridElem s r j := by linarith
    rw [abs_of_pos (by linarith : (0:ℚ) < v - gridElem s r j)]
    linarith
  unfold earliestNearestSpec
  refine find?_map_range _ (n + 1) (gridElem s r) k (by omega) ?_ ?_
  · intro j hj
    rw [List.all_eq_false]
    refine ⟨gridElem s r k, uniformGrid_mem s r n k hk, ?_⟩
    simp only [decide_eq_true_eq]
    push_neg
    exact hstrict j hj
  · rw [List.all_eq_true]
    intro d hd
    obtain ⟨j, hjmem, rfl⟩ := List.mem_map.1 hd
    rw [List.mem_range] at hjmem
    exact decide_eq_true (hmin j (by omega))

lemma snap_uniform_at (s r v : ℚ) (hr : 0 < r) (n k : ℕ) (hk : k ≤ n)
    (h1 : gridElem s r k - r / 2 < v) (h2 : v ≤ gridElem s r k + r / 2)
    (hbig : r / 2 < gridElem s r n + 1) :
    snap_value v ((List.range (n + 1)).map (gridElem s r)) = .ok (gridElem s r k) := by
  have hc := earliest_uniform_midpoint s r v hr n k hk h1 h2
  refine snap_value_earliest v _ (gridElem s r n) _ (uniformGrid_pyMax s r hr n) hc ?_
  have : |v - gridElem s r k| ≤ r / 2 := by
    rw [abs_le]
    constructor <;> linarith
  linarith

lemma enlarge_floor_keep (v : ℚ) (grid : List ℚ) (snapped : ℚ)
    (hsnap : snap_value v grid = .ok snapped) (h : snapped ≤ v) :
    enlarge_coordinate v grid true = .ok snapped := by
  unfold enlarge_coordinate
  rw [hsnap]
  dsimp only
  rw [if_pos rfl, if_pos h]

lemma enlarge_ceil_keep (v : ℚ) (grid : List ℚ) (snapped : ℚ)
    (hsnap : snap_value v grid = .ok snapped) (h : v ≤ snapped) :
    enlarge_coordinate v grid false = .ok snapped := by
  unfold enlarge_coordinate
  rw [hsnap]
  dsimp only
  rw [if_neg Bool.false_ne_true, if_pos h]

lemma enlarge_floor_step (s r v : ℚ) (hr : 0 < r) (n k : ℕ) (hk : k ≤ n) (hk1 : 1 ≤ k)
    (hsnap : snap_value v ((List.range (n + 1)).map (gridElem s r)) = .ok (gridElem s r k))
    (hkv : ¬ gridElem s r k ≤ v) :
    enlarge_coordinate v ((List.range (n + 1)).map (gridElem s r)) true
      = .ok (gridElem s r (k - 1)) := by
  unfold enlarge_coordinate
  rw [hsnap]
  dsimp only
  rw [if_pos rfl, if_neg hkv, uniformGrid_indexOf s r hr n k hk]
  have hstep : ((k : ℤ) - 1) = ((k - 1 : ℕ) : ℤ) := by omega
  rw [hstep, pyGet_nat, uniformGrid_get? s r n (k - 1) (by omega)]
  rfl

lemma enlarge_ceil_step (s r v : ℚ) (hr : 0 < r) (n k : ℕ) (hk : k + 1 ≤ n)
    (hsnap : snap_value v ((List.range (n + 1)).map (gridElem s r)) = .ok (gridElem s r k))
    (hkv : ¬ v ≤ gridElem s r k) :
    enlarge_coordinate v ((List.range (n + 1)).map (gridElem s r)) false
      = .ok (gridElem s r (k + 1)) := by
  unfold enlarge_coordinate
  rw [hsnap]
  dsimp only
  rw [if_neg Bool.false_ne_true, if_neg hkv, uniformGrid_indexOf s r hr n k (by omega)]
  have hstep : ((k : ℤ) + 1) = ((k + 1 : ℕ) : ℤ) := by omega
  rw [hstep, pyGet_nat, uniformGrid_get? s r n (k + 1) hk]
  rfl

lemma except_bind_ok {e a b : Type} (x : a) (f : a → Except e b) :
    (Except.ok x : Except e a) >>= f = f x := rfl

lemma full_grid (s e r : ℚ) (m : ℕ) (hr : 0 < r) (hse : s ≤ e) (hm : (m : ℚ) * r = e - s) :
    generate_1d_grid s e r = .ok ((List.range (m + 1)).map (gridElem s r)) := by
  rw [generate_1d_grid_eq s e r hr]
  have hn : nSteps e r s = m + 1 := by
    unfold nSteps
    rw [if_neg (not_lt.2 hse)]
    have hdiv : (e - s) / r = (m : ℚ) := by
      rw [eq_comm, eq_div_iff hr.ne']
      exact hm
    rw [hdiv]
    have : ⌊(m : ℚ)⌋ = (m : ℤ) := by exact_mod_cast Int.floor_natCast m
    rw [this]
    omega
  rw [hn]

/-- C2 amended: the universal containment claim fails for resolutions whose
grid stops short of the domain ends (see the counterexample), but it holds
whenever the resolution divides 180 an integral number of times (so the
generated grids reach 180 and 90 exactly): for every in-range box the
returned box contains the input box and every returned edge lies on the
corresponding generated grid; and in particular for resolution `0.5` and
input `(10.3, 20.7, 15.1, 25.2)` the result is `(10.0, 20.5, 15.5, 25.5)`. -/
theorem claim_C2_amended :
    (∀ (r x0 y0 x1 y1 : ℚ) (j : ℕ), 0 < j → (j : ℚ) * r = 180 →
      -180 ≤ x0 → x0 ≤ 180 → -90 ≤ y0 → y0 ≤ 90 →
      -180 ≤ x1 → x1 ≤ 180 → -90 ≤ y1 → y1 ≤ 90 →
      ∃ xg yg a b c d,
        generate_1d_grid (-180) 180 r = .ok xg ∧
        generate_1d_grid (-90) 90 r = .ok yg ∧
        snap_bbox_to_grid r x0 y0 x1 y1 = .ok (a, b, c, d) ∧
        a ≤ x0 ∧ b ≤ y0 ∧ x1 ≤ c ∧ y1 ≤ d ∧
        a ∈ xg ∧ b ∈ yg ∧ c ∈ xg ∧ d ∈ yg)
    ∧ snap_bbox_to_grid (1/2) (103/10) (207/10) (151/10) (126/5)
        = .ok (10, 41/2, 31/2, 51/2) := by
  constructor
  · intro r x0 y0 x1 y1 j hj hjr hx0 hx0' hy0 hy0' hx1 hx1' hy1 hy1'
    have hj1 : (1 : ℚ) ≤ (j : ℚ) := by exact_mod_cast hj
    have hr : 0 < r := by nlinarith [hjr, hj1]
    have hr180 : r ≤ 180 := by nlinarith [hjr, hj1, hr]
    have hgx : generate_1d_grid (-180) 180 r
        = .ok ((List.range (2 * j + 1)).map (gridElem (-180) r)) := by
      refine full_grid (-180) 180 r (2 * j) hr (by norm_num) ?_
      push_cast
      nlinarith [hjr]
    have hgy : generate_1d_grid (-90) 90 r
        = .ok ((List.range (j + 1)).map (gridElem (-90) r)) := by
      refine full_grid (-90) 90 r j hr (by norm_num) ?_
      linarith [hjr]
    have hex : gridElem (-180) r (2 * j) = 180 := by
      unfold gridElem
      push_cast
      nlinarith [hjr]
    have hey : gridElem (-90) r j = 90 := by
      unfold gridElem
      linarith [hjr]
    have hbigx : r / 2 < gridElem (-180) r (2 * j) + 1 := by rw [hex]; linarith
    have hbigy : r / 2 < gridElem (-90) r j + 1 := by rw [hey]; linarith
    obtain ⟨a, ha, hav, hamem⟩ :=
      enlarge_floor_uniform (-180) r x0 hr (2 * j) hx0 (by rw [hex]; exact hx0') hbigx
    obtain ⟨b, hb, hbv, hbmem⟩ :=
      enlarge_floor_uniform (-90) r y0 hr j hy0 (by rw [hey]; exact hy0') hbigy
    obtain ⟨c, hc, hcv, hcmem⟩ :=
      enlarge_ceil_uniform (-180) r x1 hr (2 * j) hx1 (by rw [hex]; exact hx1') hbigx
    obtain ⟨d, hd, hdv, hdmem⟩ :=
      enlarge_ceil_uniform (-90) r y1 hr j hy1 (by rw [hey]; exact hy1') hbigy
    refine ⟨_, _, a, b, c, d, hgx, hgy, ?_, hav, hbv, hcv, hdv, hamem, hbmem, hcmem, hdmem⟩
    unfold snap_bbox_to_grid
    rw [hgx, except_bind_ok, hgy, except_bind_ok, ha, except_bind_ok, hb, except_bind_ok,
      hc, except_bind_ok, hd, except_bind_ok]
    rfl
  · have hr : (0 : ℚ) < 1/2 := by norm_num
    have hgx : generate_1d_grid (-180) 180 (1/2)
        = .ok ((List.range (720 + 1)).map (gridElem (-180) (1/2))) := by
      refine full_grid (-180) 180 (1/2) 720 hr (by norm_num) (by push_cast; norm_num)
    have hgy : generate_1d_grid (-90) 90 (1/2)
        = .ok ((List.range (360 + 1)).map (gridElem (-90) (1/2))) := by
      refine full_grid (-90) 90 (1/2) 360 hr (by norm_num) (by push_cast; norm_num)
    have hbigx : (1:ℚ)/2 / 2 < gridElem (-180) (1/2) 720 + 1 := by
      unfold gridElem
      push_cast
      norm_num
    have hbigy : (1:ℚ)/2 / 2 < gridElem (-90) (1/2) 360 + 1 := by
      unfold gridElem
      push_cast
      norm_num
    have hsx0 : snap_value (103/10) ((List.range (720 + 1)).map (gridElem (-180) (1/2)))
        = .ok (gridElem (-180) (1/2) 381) := by
      refine snap_uniform_at (-180) (1/2) (103/10) hr 720 381 (by norm_num) ?_ ?_ hbigx <;>
        (unfold gridElem; push_cast; norm_num)
    have ha : enlarge_coordinate (103/10) ((List.range (720 + 1)).map (gridElem (-180) (1/2))) true
        = .ok (gridElem (-180) (1/2) 380) := by
      have := enlarge_floor_step (-180) (1/2) (103/10) hr 720 381 (by norm_num) (by norm_num)
        hsx0 (by unfold gridElem; push_cast; norm_num)
      simpa using this
    have hsy0 : snap_value (207/10) ((List.range (360 + 1)).map (gridElem (-90) (1/2)))
        = .ok (gridElem (-90) (1/2) 221) := by
      refine snap_uniform_at (-90) (1/2) (207/10) hr 360 221 (by norm_num) ?_ ?_ hbigy <;>
        (unfold gridElem; push_cast; norm_num)
    have hb : enlarge_coordinate (207/10) ((List.range (360 + 1)).map (gridElem (-90) (1/2))) true
        = .ok (gridElem (-90) (1/2) 221) :=
      enlarge_floor_keep _ _ _ hsy0 (by unfold gridElem; push_cast; norm_num)
    have hsx1 : snap_value (151/10) ((List.range (720 + 1)).map (gridElem (-180) (1/2)))
        = .ok (gridElem (-180) (1/2) 390) := by
      refine snap_uniform_at (-180) (1/2) (151/10) hr 720 390 (by norm_num) ?_ ?_ hbigx <;>
        (unfold gridElem; push_cast; norm_num)
    have hc : enlarge_coordinate (151/10) ((List.range (720 + 1)).map (gridElem (-180) (1/2))) false
        = .ok (gridElem (-180) (1/2) 391) := by
      exact enlarge_ceil_step (-180) (1/2) (151/10) hr 720 390 (by norm_num) hsx1
        (by unfold gridElem; push_cast; norm_num)
    have hsy1 : snap_value (126/5) ((List.range (360 + 1)).map (gridElem (-90) (1/2)))
        = .ok (gridElem (-90) (1/2) 230) := by
      refine snap_uniform_at (-90) (1/2) (126/5) hr 360 230 (by norm_num) ?_ ?_ hbigy <;>
        (unfold gridElem; push_cast; norm_num)
    have hd : enlarge_coordinate (126/5) ((List.range (360 + 1)).map (gridElem (-90) (1/2))) false
        = .ok (gridElem (-90) (1/2) 231) := by
      exact enlarge_ceil_step (-90) (1/2) (126/5) hr 360 230 (by norm_num) hsy1
        (by unfold gridElem; push_cast; norm_num)
    unfold snap_bbox_to_grid
    rw [hgx, except_bind_ok, hgy, except_bind_ok, ha, except_bind_ok, hb, except_bind_ok,
      hc, except_bind_ok, hd, except_bind_ok]
    have e1 : gridElem (-180) (1/2) 380 = 10 := by unfold gridElem; push_cast; norm_num
    have e2 : gridElem (-90) (1/2) 221 = 41/2 := by unfold gridElem; push_cast; norm_num
    have e3 : gridElem (-180) (1/2) 391 = 31/2 := by unfold gridElem; push_cast; norm_num
    have e4 : gridElem (-90) (1/2) 231 = 51/2 := by unfold gridElem; push_cast; norm_num
    rw [e1, e2, e3, e4]
    rfl

set_option maxRecDepth 100000 in
/-- C2 as stated is false: for resolution `7` the longitude grid ends at
`177 < 180` (since `7` does not divide `360`), and the upper-bound
enlargement of `x1 = 180` falls back to the snapped value `177` at the last
grid position, so the returned box does not contain the input box. -/
theorem claim_C2_counterexample :
    snap_bbox_to_grid 7 0 0 180 0 = .ok (-5, -6, 177, 1) ∧ (177 : ℚ) < 180 :=
  ⟨by decide, by norm_num⟩

theorem claim_C2_amended_witness :
    ∃ xg yg a b c d,
      generate_1d_grid (-180) 180 45 = .ok xg ∧
      generate_1d_grid (-90) 90 45 = .ok yg ∧
      snap_bbox_to_grid 45 0 0 0 0 = .ok (a, b, c, d) ∧
      a ≤ 0 ∧ b ≤ 0 ∧ (0:ℚ) ≤ c ∧ (0:ℚ) ≤ d ∧
      a ∈ xg ∧ b ∈ yg ∧ c ∈ xg ∧ d ∈ yg :=
  claim_C2_amended.1 45 0 0 0 0 4 (by norm_num) (by norm_num) (by norm_num) (by norm_num)
    (by norm_num) (by norm_num) (by norm_num) (by norm_num) (by norm_num) (by norm_num)

set_option maxRecDepth 10000 in
/-- C1: the claim (and the spec, and the `try/except IndexError` in the
code) say that in the floor case, a snapped value that exceeds `v` while
sitting at the grid's first position is returned unchanged.  The code
instead evaluates `grid[grid.index(snapped) - 1] = grid[-1]`, which Python
resolves to the *last* grid element — the `except IndexError` fallback is
dead code in the floor branch.  Here `snap_value(-0.4, [0.0, 1.0, 2.0])`
snaps to `0.0` (first position, exceeding `-0.4`), and the function
returns `2.0`, the last element, not `0.0`. -/
theorem claim_C1_wraparound_eval :
    enlarge_coordinate (-2/5) [0, 1, 2] true = .ok 2 := by decide

/-! ## Lemmas: the validation layer -/

lemma except_bind_ok_inv {e a b : Type} {x : Except e a} {f : a → Except e b} {v : b}
    (h : x >>= f = .ok v) : ∃ u, x = .ok u ∧ f u = .ok v := by
  cases x with
  | error err => exact Except.noConfusion h
  | ok u => exact ⟨u, rfl, h⟩

lemma uint32_le_iff (a b : UInt32) : a ≤ b ↔ a.toNat ≤ b.toNat := by
  rw [UInt32.le_def, BitVec.le_def]
  rfl

lemma char_toLower_isUpper (c : Char) : c.toLower.isUpper = false := by
  rw [Char.toLower]
  split
  · next h =>
    have hv : (c.toNat + 32).isValidChar := by
      left
      omega
    rw [Char.ofNat, dif_pos hv, Char.isUpper]
    have hval2 : (Char.ofNatAux (c.toNat + 32) hv).val.toNat = c.toNat + 32 := rfl
    have hnot : ¬ ((Char.ofNatAux (c.toNat + 32) hv).val ≤ 90) := by
      rw [uint32_le_iff, hval2]
      have h90 : (90 : UInt32).toNat = 90 := rfl
      rw [h90]
      omega
    simp [hnot]
  · next h =>
    rw [Char.isUpper]
    rw [not_and_or] at h
    rcases h with h | h
    · have hnot : ¬ (c.val ≥ 65) := by
        rw [ge_iff_le, uint32_le_iff]
        have h65 : (65 : UInt32).toNat = 65 := rfl
        rw [h65]
        exact fun hc => h hc
      simp [hnot]
    · have hnot : ¬ (c.val ≤ 90) := by
        rw [uint32_le_iff]
        have h90 : (90 : UInt32).toNat = 90 := rfl
        rw [h90]
        exact fun hc => h hc
      simp [hnot]

lemma pyLower_no_upper (s : List Char) : ∀ ch ∈ pyLower s, ch.isUpper = false := by
  intro ch hch
  obtain ⟨c, _, rfl⟩ := List.mem_map.1 hch
  exact char_toLower_isUpper c

lemma parseCategoriesLoop_lower (mapping : List (List Char × List (List Char))) :
    ∀ (parts : List (List Char)) (l : List (List Char)),
      parseCategoriesLoop mapping parts = .ok l → ∀ x ∈ l, ∃ src, x = pyLower src := by
  intro parts
  induction parts with
  | nil =>
    intro l h
    obtain rfl : ([] : List (List Char)) = l := by simpa [parseCategoriesLoop] using h
    simp
  | cons c rest ih =>
    intro l h
    unfold parseCategoriesLoop at h
    simp only [] at h
    split at h
    · split at h
      · split at h
        · obtain ⟨more, hmore, hcons⟩ := except_bind_ok_inv h
          obtain rfl : pyLower c :: more = l := by simpa using hcons
          intro x hx
          rcases List.mem_cons.1 hx with rfl | hx'
          · exact ⟨c, rfl⟩
          · exact ih more hmore x hx'
        · exact Except.noConfusion h
      · exact Except.noConfusion h
    · exact Except.noConfusion h

lemma processTaxonomic_lower (cfg : HevConfig) (collection : List Char)
    (cats : Option (List Char)) (tax : Option (List (List Char)))
    (h : processTaxonomic cfg collection cats = .ok tax) :
    ∀ x ∈ tax.getD [], ∃ src, x = pyLower src := by
  unfold processTaxonomic at h
  split at h
  · split at h
    · obtain ⟨l, hl, hsome⟩ := except_bind_ok_inv h
      obtain rfl : some l = tax := by simpa using hsome
      unfold _parse_categories at hl
      exact parseCategoriesLoop_lower cfg.taxonomy_mapping _ l hl
    · obtain rfl : (none : Option (List (List Char))) = tax := by simpa using h
      simp
  · obtain rfl : (none : Option (List (List Char))) = tax := by simpa using h
    simp

lemma processOrderItem_ok (cfg : HevConfig) (pF : List Char → Option ℚ)
    (pI : List Char → Option ℤ) (item : OrderItemIn) (out : OrderItemOut)
    (h : processOrderItem cfg pF pI item = .ok out) :
    ∃ collection lname,
      _validate_layer (item.layer.getD []) = .ok (collection, lname) ∧
      out.layer = item.layer.getD [] ∧
      out.format = pyLower (item.format.getD []) ∧
      processBbox cfg pF item.bbox = .ok out.bbox ∧
      processTaxonomic cfg collection item.taxonomic_categories = .ok out.taxonomic_categories ∧
      processEventIds pI collection item.event_ids = .ok out.event_ids := by
  unfold processOrderItem at h
  simp only [] at h
  split at h
  · exact Except.noConfusion h
  · obtain ⟨p, hlayer, h⟩ := except_bind_ok_inv h
    obtain ⟨collection, lname⟩ := p
    split at h
    · exact Except.noConfusion h
    · obtain ⟨u, hfmt, h⟩ := except_bind_ok_inv h
      obtain ⟨bbox, hbbox, h⟩ := except_bind_ok_inv h
      obtain ⟨tax, htax, h⟩ := except_bind_ok_inv h
      obtain ⟨evs, hevs, h⟩ := except_bind_ok_inv h
      have hout : OrderItemOut.mk (item.layer.getD []) (pyLower (item.format.getD []))
          bbox tax evs = out := by
        simpa using h
      rw [← hout]
      exact ⟨collection, lname, hlayer, rfl, rfl, hbbox, htax, hevs⟩

lemma processBbox_verbatim (cfg : HevConfig) (pF : List Char → Option ℚ)
    (bs : List Char) (parsed : ℚ × ℚ × ℚ × ℚ)
    (hres : cfg.bbox_snap_resolution = none) (hbs : bs ≠ [])
    (hp : _parse_bbox pF bs = .ok parsed) :
    processBbox cfg pF (some bs) = .ok (some parsed) := by
  unfold processBbox
  dsimp only
  rw [if_neg hbs, hp, except_bind_ok, hres]

/-! ## Claims C7, C8, C10 -/

/-- C7 as stated is false in one corner: an order item carrying the *empty*
bbox string is not validated at all — `if bbox_str:` treats `""` as absent —
so no `bbox` error is raised even though `""` does not split into four
float-parseable parts; the item is accepted with no bbox. -/
theorem claim_C7_counterexample :
    processOrderItem ⟨none, [("format".data, ["geotiff".data])], []⟩ (fun _ => none)
        (fun _ => none)
        ⟨some "exposure:res1".data, some "geotiff".data, some "".data, none, none⟩
      = .ok ⟨"exposure:res1".data, "geotiff".data, none, none, none⟩
    ∧ (pySplit ',' "".data).map (fun _ => (none : Option ℚ)) = [none] := by
  constructor
  · decide
  · decide

/-- C7 amended: for every order item carrying a *non-empty* bbox string:
if the string does not split into exactly four float-parseable parts the
validation fails with the `bbox`-tagged error (in particular for the string
`"a,b,c"` whatever the float parser says), if it parses but violates the
longitude/latitude ranges it fails with the other `bbox`-tagged error, and
if it parses and is in range the box reaches the validated item through the
grid snap when a resolution is configured and verbatim when it is `None`. -/
theorem claim_C7_amended :
    (∀ (pF : List Char → Option ℚ) (s : List Char),
      (¬ ∃ a b c d : ℚ, (pySplit ',' s).map pF = [some a, some b, some c, some d]) →
      _parse_bbox pF s = .error (.validation "bbox" "Invalid numeric values"))
    ∧ (∀ (pF : List Char → Option ℚ) (s : List Char) (a b c d : ℚ),
      (pySplit ',' s).map pF = [some a, some b, some c, some d] →
      ¬ ((-180 ≤ a ∧ a ≤ 180 ∧ -180 ≤ c ∧ c ≤ 180) ∧ (-90 ≤ b ∧ b ≤ 90 ∧ -90 ≤ d ∧ d ≤ 90)) →
      _parse_bbox pF s = .error (.validation "bbox" "Invalid values. Expecting x0,y0,x1,y1"))
    ∧ (∀ pF : List Char → Option ℚ,
      _parse_bbox pF "a,b,c".data = .error (.validation "bbox" "Invalid numeric values"))
    ∧ (∀ (cfg : HevConfig) (pF : List Char → Option ℚ) (pI : List Char → Option ℤ)
        (item : OrderItemIn) (bs : List Char) (parsed : ℚ × ℚ × ℚ × ℚ) (out : OrderItemOut),
      cfg.bbox_snap_resolution = none → item.bbox = some bs → bs ≠ [] →
      _parse_bbox pF bs = .ok parsed →
      processOrderItem cfg pF pI item = .ok out → out.bbox = some parsed)
    ∧ (∀ (cfg : HevConfig) (pF : List Char → Option ℚ) (pI : List Char → Option ℤ)
        (item : OrderItemIn) (bs : List Char) (parsed : ℚ × ℚ × ℚ × ℚ) (res : ℚ)
        (out : OrderItemOut),
      cfg.bbox_snap_resolution = some res → item.bbox = some bs → bs ≠ [] →
      _parse_bbox pF bs = .ok parsed →
      processOrderItem cfg pF pI item = .ok out →
      ∃ sb, snap_bbox_to_grid res parsed.1 parsed.2.1 parsed.2.2.1 parsed.2.2.2 = .ok sb ∧
        out.bbox = some sb)
    ∧ (∀ (cfg : HevConfig) (pF : List Char → Option ℚ) (bs : List Char) (err : PyError),
      bs ≠ [] → _parse_bbox pF bs = .error err →
      processBbox cfg pF (some bs) = .error err) := by
  refine ⟨?_, ?_, ?_, ?_, ?_, ?_⟩
  · intro pF s hno
    unfold _parse_bbox
    split
    · next a b c d heq => exact absurd ⟨a, b, c, d, heq⟩ hno
    · rfl
  · intro pF s a b c d heq hrange
    unfold _parse_bbox
    rw [heq]
    dsimp only
    rw [if_neg hrange]
  · intro pF
    have hm : (pySplit ',' "a,b,c".data).map pF
        = [pF "a".data, pF "b".data, pF "c".data] := rfl
    unfold _parse_bbox
    rw [hm]
    split
    · next heq => exact absurd heq (by simp)
    · rfl
  · intro cfg pF pI item bs parsed out hres hib hbs hp h
    obtain ⟨collection, lname, _, _, _, hbbox, _, _⟩ :=
      processOrderItem_ok cfg pF pI item out h
    rw [hib] at hbbox
    have := (processBbox_verbatim cfg pF bs parsed hres hbs hp).symm.trans hbbox
    exact (Except.ok.inj this).symm
  · intro cfg pF pI item bs parsed res out hres hib hbs hp h
    obtain ⟨collection, lname, _, _, _, hbbox, _, _⟩ :=
      processOrderItem_ok cfg pF pI item out h
    rw [hib] at hbbox
    unfold processBbox at hbbox
    dsimp only at hbbox
    rw [if_neg hbs, hp, except_bind_ok, hres] at hbbox
    obtain ⟨sb, hsb, hsome⟩ := except_bind_ok_inv hbbox
    exact ⟨sb, hsb, (Except.ok.inj hsome).symm⟩
  · intro cfg pF bs err hbs hp
    unfold processBbox
    dsimp only
    rw [if_neg hbs, hp]
    rfl

theorem claim_C7_amended_witness :
    OrderItemOut.bbox ⟨"hazard:h1".data, "csv".data, some (1, 2, 3, 4), none, none⟩
      = some (1, 2, 3, 4) := by
  refine claim_C7_amended.2.2.2.1 ⟨none, [("format".data, ["csv".data])], []⟩
    (fun s => if s = "1".data then some 1 else if s = "2".data then some 2
      else if s = "3".data then some 3 else if s = "4".data then some 4 else none)
    (fun _ => none)
    ⟨some "hazard:h1".data, some "csv".data, some "1,2,3,4".data, none, none⟩
    "1,2,3,4".data (1, 2, 3, 4) _ rfl rfl (by decide) (by decide) (by decide)

/-- C8: `_validate_format` accepts a format token iff it belongs to the
configured whitelist found under the option key of the item's collection —
`"vulnerabilityFormat"` for the `vulnerability` collection and `"format"`
for every other collection — and otherwise raises the field-level
validation error naming `format` (provided the configuration contains the
option key at all; an absent key is the `IndexError` of `[...][0]`). -/
theorem claim_C8_validate_format (conf : List (List Char × List (List Char)))
    (fmt coll : List Char) (choices : List (List Char)) (rest : List (List (List Char)))
    (hfind : (conf.filter fun i =>
        i.1 = (if coll = "vulnerability".data then "vulnerabilityFormat".data
          else "format".data)).map (fun i => i.2) = choices :: rest) :
    (_validate_format conf fmt coll = .ok () ↔ fmt ∈ choices)
    ∧ (fmt ∉ choices →
        _validate_format conf fmt coll = .error (.validation "format" "invalid value")) := by
  unfold _validate_format
  simp only [] at hfind ⊢
  rw [hfind]
  dsimp only
  constructor
  · constructor
    · intro h
      by_contra hmem
      rw [if_neg hmem] at h
      exact Except.noConfusion h
    · intro hmem
      rw [if_pos hmem]
  · intro hmem
    rw [if_neg hmem]

theorem claim_C8_validate_format_witness :
    (_validate_format [("format".data, ["geotiff".data])] "geotiff".data "exposure".data
        = .ok () ↔ "geotiff".data ∈ ["geotiff".data])
    ∧ ("geotiff".data ∉ ["geotiff".data] →
        _validate_format [("format".data, ["geotiff".data])] "geotiff".data "exposure".data
          = .error (.validation "format" "invalid value")) :=
  claim_C8_validate_format [("format".data, ["geotiff".data])] "geotiff".data "exposure".data
    ["geotiff".data] [] (by decide)

/-- C10: every order item that passes validation stores its format token
lowercased (`item.get("format", "").lower()`) and every taxonomic-category
token lowercased (`info = cat_info.lower()` before any matching), so the
validated structure never contains an uppercase format or category
character. -/
theorem claim_C10_lowercase (cfg : HevConfig) (pF : List Char → Option ℚ)
    (pI : List Char → Option ℤ) (item : OrderItemIn) (out : OrderItemOut)
    (h : processOrderItem cfg pF pI item = .ok out) :
    out.format = pyLower (item.format.getD []) ∧
    (∀ ch ∈ out.format, ch.isUpper = false) ∧
    (∀ cat ∈ out.taxonomic_categories.getD [], ∀ ch ∈ cat, ch.isUpper = false) := by
  obtain ⟨collection, lname, _, _, hfmt, _, htax, _⟩ :=
    processOrderItem_ok cfg pF pI item out h
  refine ⟨hfmt, ?_, ?_⟩
  · rw [hfmt]
    exact pyLower_no_upper _
  · intro cat hcat ch hch
    obtain ⟨src, rfl⟩ :=
      processTaxonomic_lower cfg collection item.taxonomic_categories
        out.taxonomic_categories htax cat hcat
    exact pyLower_no_upper src ch hch

theorem claim_C10_lowercase_witness :
    OrderItemOut.format ⟨"hazard:h1".data, "csv".data, none, none, none⟩
        = pyLower ((some "CSV".data).getD []) ∧
    (∀ ch ∈ OrderItemOut.format ⟨"hazard:h1".data, "csv".data, none, none, none⟩,
      ch.isUpper = false) ∧
    (∀ cat ∈ (OrderItemOut.taxonomic_categories
        ⟨"hazard:h1".data, "csv".data, none, none, none⟩).getD [],
      ∀ ch ∈ cat, ch.isUpper = false) := by
  have h : processOrderItem ⟨none, [("format".data, ["csv".data])], []⟩ (fun _ => none)
      (fun _ => none) ⟨some "hazard:h1".data, some "CSV".data, none, none, none⟩
      = .ok ⟨"hazard:h1".data, "csv".data, none, none, none⟩ := by decide
  exact claim_C10_lowercase _ _ _ _ _ h
